import Mathlib

/-!
Verification development for the QNX space-launch-system simulator core.

The definitions below are shallow embeddings of the C sources:
  * the command service receive loop (src/qnx/ipc.c, recv_loop),
  * the mock TCP command server (cmd_server.c, handle_command),
  * the telemetry ring-buffer device (rmgr_telemetry.c, io_read and
    rmgr_telemetry_append),
  * the mission-phase lookup (main.c, update_mission_phase with
    DEFAULT_MISSION_PHASES from sls_config.h),
  * the flight-control dynamics (flight_control.c, update_vehicle_dynamics,
    with sls_clamp from sls_utils.c),
  * the telemetry record formatter (main_qnx.c, append_telem_line).
C machine doubles are modelled as exact rationals; the two transcendental
library calls (exp, sqrt) feed only the dynamic-pressure, Mach and drag
fields and are passed in as abstract functions.
-/

/-! ## Command service (src/qnx/ipc.c, recv_loop) -/

/-- Command type codes from the wire protocol in src/qnx/ipc.h (cmd_t). -/
def CMD_STATUS : Int := 1

/-- CMD_GO code from src/qnx/ipc.h. -/
def CMD_GO : Int := 2

/-- CMD_NOGO code from src/qnx/ipc.h. -/
def CMD_NOGO : Int := 3

/-- CMD_ABORT code from src/qnx/ipc.h. -/
def CMD_ABORT : Int := 4

/-- CMD_SET_THROTTLE code from src/qnx/ipc.h. -/
def CMD_SET_THROTTLE : Int := 5

/-- Wire message: struct sim_msg_t of src/qnx/ipc.h (type : i32, value : i32). -/
structure SimMsg where
  type : Int
  value : Int
deriving Repr, DecidableEq

/-- Wire reply: struct sim_reply_t of src/qnx/ipc.h. -/
structure SimReply where
  ok : Int
  mission_go : Int
  throttle : Int
deriving Repr, DecidableEq

/-- The mutable fields the server's receive loop controls, per the pointers
passed to ipc_server_start in main_qnx.c (g_mission_go, g_throttle,
g_abort_req, all non-null there). -/
structure SrvState where
  mission_go : Int
  throttle : Int
  abort_req : Int
deriving Repr, DecidableEq

/-- Initial server state in main_qnx.c: all three globals start at 0. -/
def srvInit : SrvState := { mission_go := 0, throttle := 0, abort_req := 0 }

/-- The body of the C statement sequence `if (v < 0) v = 0; if (v > 100) v = 100;`
from the CMD_SET_THROTTLE case of recv_loop. -/
def throttleClampC (v : Int) : Int :=
  let v1 := if v < 0 then 0 else v
  if v1 > 100 then 100 else v1

/-- One iteration of recv_loop in src/qnx/ipc.c for a client message
(rcvid > 0): the switch over msg.type mutates the shared state, then the
reply's mission_go and throttle are re-read from the state after the
mutation, and exactly one MsgReply is sent.  Pulses (rcvid == 0) take a
separate path that performs no mutation and no reply and are not part of
this function. -/
def recv_handle (s : SrvState) (m : SimMsg) : SrvState × SimReply :=
  let okInit : Int := 1
  let r : SrvState × Int :=
    if m.type = CMD_STATUS then (s, okInit)
    else if m.type = CMD_GO then
      ({ s with mission_go := 1, abort_req := 0 }, okInit)
    else if m.type = CMD_NOGO then
      ({ s with mission_go := 0 }, okInit)
    else if m.type = CMD_ABORT then
      ({ s with abort_req := 1, mission_go := 0 }, okInit)
    else if m.type = CMD_SET_THROTTLE then
      ({ s with throttle := throttleClampC m.value }, okInit)
    else (s, 0)
  (r.1, { ok := r.2, mission_go := r.1.mission_go, throttle := r.1.throttle })

/-- State after the receive loop processes a sequence of client messages,
one at a time (replies complete before the next receive). -/
def recv_run (s : SrvState) (ms : List SimMsg) : SrvState :=
  ms.foldl (fun s m => (recv_handle s m).1) s

/-- The sequence of replies the receive loop sends for a message sequence. -/
def recv_replies (s : SrvState) (ms : List SimMsg) : List SimReply :=
  match ms with
  | [] => []
  | m :: rest => (recv_handle s m).2 :: recv_replies (recv_handle s m).1 rest

/-! ## Mock TCP command server (cmd_server.c, handle_command) -/

/-- The commands handle_command in cmd_server.c distinguishes by substring
match on the JSON line: status, go, nogo, abort, set_throttle with a value.
Lines matching none of the five patterns (or a set_throttle with no value
field) leave the state unchanged. -/
inductive MockCmd where
  | status
  | go
  | nogo
  | abort
  | setThrottle (v : Int)
  | other
deriving Repr, DecidableEq

/-- The mock server's shared state: g_mission_go and g_engine_throttle in
cmd_server.c. -/
structure MockState where
  mission_go : Int
  engine_throttle : Int
deriving Repr, DecidableEq

/-- State effect of handle_command in cmd_server.c.  status only formats a
reply; go and nogo set g_mission_go; abort sets g_mission_go = 0 AND
g_engine_throttle = 0; set_throttle clamps the value into [0, 100] with the
same two-if sequence as the native service. -/
def handle_command (s : MockState) (c : MockCmd) : MockState :=
  match c with
  | .status => s
  | .go => { s with mission_go := 1 }
  | .nogo => { s with mission_go := 0 }
  | .abort => { mission_go := 0, engine_throttle := 0 }
  | .setThrottle v => { s with engine_throttle := throttleClampC v }
  | .other => s

/-! ## Telemetry ring-buffer device (rmgr_telemetry.c) -/

/-- RBUF_SZ from rmgr_telemetry.c: the ring holds 8192 bytes. -/
def RBUF_SZ : Nat := 8192

/-- The device state: the static char ring[RBUF_SZ] together with the write
position r_head and the read position r_tail. -/
structure RingState where
  ring : Nat → Char
  r_head : Nat
  r_tail : Nat

/-- The ring at process start: a zero-initialised static array with both
heads at 0. -/
def ringInit : RingState :=
  { ring := fun _ => Char.ofNat 0, r_head := 0, r_tail := 0 }

/-- Well-formedness maintained by the code: both heads stay below RBUF_SZ
(they are only ever assigned values reduced mod RBUF_SZ, from 0). -/
def RingWF (s : RingState) : Prop :=
  s.r_head < RBUF_SZ ∧ s.r_tail < RBUF_SZ

/-- One iteration of the copy loop in rmgr_telemetry_append: store the byte
at r_head, advance r_head mod RBUF_SZ, and if the write head has met the
read head, advance r_tail by ONE byte mod RBUF_SZ (the `overwrite oldest`
branch). -/
def appendByte (s : RingState) (c : Char) : RingState :=
  let ring' := fun i => if i = s.r_head then c else s.ring i
  let h' := (s.r_head + 1) % RBUF_SZ
  if h' = s.r_tail then
    { ring := ring', r_head := h', r_tail := (s.r_tail + 1) % RBUF_SZ }
  else
    { ring := ring', r_head := h', r_tail := s.r_tail }

/-- rmgr_telemetry_append: copy up to strnlen(line, 512) bytes of the line
into the ring, byte by byte. -/
def rmgr_telemetry_append (s : RingState) (line : List Char) : RingState :=
  (line.take 512).foldl appendByte s

/-- The available-byte computation of io_read:
(r_head >= r_tail) ? (r_head - r_tail) : (RBUF_SZ - (r_tail - r_head)). -/
def ringAvailable (s : RingState) : Nat :=
  if s.r_head ≥ s.r_tail then s.r_head - s.r_tail
  else RBUF_SZ - (s.r_tail - s.r_head)

/-- The byte sequence a reader draining the device observes: the ring
contents from r_tail, in FIFO order, wrapping mod RBUF_SZ. -/
def ringObs (s : RingState) : List Char :=
  (List.range (ringAvailable s)).map (fun k => s.ring ((s.r_tail + k) % RBUF_SZ))

/-- Result of one io_read call in rmgr_telemetry.c.  einval models
_RESMGR_ERR(EINVAL) for a zero-length read, eagain models
_RESMGR_ERR(EAGAIN) in non-blocking mode on an empty device, noreply models
_RESMGR_NOREPLY in blocking mode on an empty device (the client stays
reply-blocked: the reader is suspended), and data carries the bytes copied
back to the client. -/
inductive ReadResult where
  | einval
  | eagain
  | noreply
  | data (bytes : List Char)
deriving Repr, DecidableEq

/-- io_read from rmgr_telemetry.c (the data path; the xtype check rejects
only non-default transfer types and is transport-level, not data-dependent).
nbytes is the C unsigned msg->i.nbytes, so `<= 0` is `= 0`.  On data,
to_copy = min(available, nbytes) bytes are requested but the copy is cut at
the wrap point (`end` is capped at RBUF_SZ), n1 bytes are returned starting
at r_tail, and r_tail advances by n1 mod RBUF_SZ. -/
def io_read (s : RingState) (nonblock : Bool) (nbytes : Nat) : ReadResult × RingState :=
  if nbytes = 0 then (.einval, s)
  else
    let available := ringAvailable s
    if available = 0 then
      if nonblock then (.eagain, s) else (.noreply, s)
    else
      let to_copy := if available < nbytes then available else nbytes
      let e := if s.r_tail + to_copy ≤ RBUF_SZ then s.r_tail + to_copy else RBUF_SZ
      let n1 := e - s.r_tail
      let bytes := (List.range n1).map (fun k => s.ring (s.r_tail + k))
      (.data bytes, { s with r_tail := (s.r_tail + n1) % RBUF_SZ })

/-- The abstract effect of one appended byte on the observable byte queue:
a bounded FIFO of capacity RBUF_SZ - 1 that drops its oldest byte when
full.  This is the specification side of the ring-buffer abstraction. -/
def qstep (q : List Char) (c : Char) : List Char :=
  (if q.length = RBUF_SZ - 1 then q.tail else q) ++ [c]

/-- Abstract run of a byte stream through the bounded FIFO, from empty. -/
def qrun (S : List Char) : List Char := S.foldl qstep []

/-- Appending a whole byte stream to the device, from the initial state. -/
def appendStream (S : List Char) : RingState := S.foldl appendByte ringInit

/-- The device together with the kernel-side set of reply-blocked readers:
a client whose read got _RESMGR_NOREPLY stays reply-blocked on the server
until some code replies to its rcvid.  rmgr_telemetry.c itself keeps NO
record of such rcvids (io_read just returns _RESMGR_NOREPLY and drops the
rcvid; there is no iofunc_notify or stored context), so pending is purely
the kernel's view. -/
structure DevState where
  ring : RingState
  pending : List Nat

/-- One unit of device activity: an inbound read message dispatched by the
resource-manager thread, or one writer call to rmgr_telemetry_append. -/
inductive DevEvent where
  | read (rcvid : Nat) (nonblock : Bool) (nbytes : Nat)
  | append (line : List Char)

/-- The device's reaction to one event, returning the replies it sends
(rcvid paired with the result).  A read runs io_read and replies to its own
caller, except that _RESMGR_NOREPLY sends nothing and leaves the caller
reply-blocked; faithful to the source, the server records nothing about
that rcvid, so no later code path can reply to it.  An append runs
rmgr_telemetry_append, which touches only the ring bytes and heads and
sends no reply to anyone. -/
def devStep (s : DevState) (e : DevEvent) : DevState × List (Nat × ReadResult) :=
  match e with
  | .read rcvid nonblock nbytes =>
    match io_read s.ring nonblock nbytes with
    | (.noreply, ring') => ({ ring := ring', pending := rcvid :: s.pending }, [])
    | (r, ring') => ({ ring := ring', pending := s.pending }, [(rcvid, r)])
  | .append line =>
    ({ ring := rmgr_telemetry_append s.ring line, pending := s.pending }, [])

/-! ## Mission phases (sls_types.h, sls_config.h, main.c) -/

/-- mission_phase_t from sls_types.h.  Note the enum has NO countdown
value: it goes PRELAUNCH, IGNITION, LIFTOFF, ASCENT, STAGE_SEPARATION,
ORBIT_INSERTION, MISSION_COMPLETE, ABORT, UNKNOWN. -/
inductive MissionPhase where
  | prelaunch
  | ignition
  | liftoff
  | ascent
  | stageSeparation
  | orbitInsertion
  | missionComplete
  | abort
  | unknown
deriving Repr, DecidableEq

/-- The integer value of each mission_phase_t enumerator (C enum, starting
at PHASE_PRELAUNCH = 0), used where the C code orders phases with <= / >=. -/
def phaseIdx : MissionPhase → Nat
  | .prelaunch => 0
  | .ignition => 1
  | .liftoff => 2
  | .ascent => 3
  | .stageSeparation => 4
  | .orbitInsertion => 5
  | .missionComplete => 6
  | .abort => 7
  | .unknown => 8

/-- phase_config_t from sls_config.h. -/
structure PhaseConfig where
  phase : MissionPhase
  start_time : ℚ
  duration : ℚ
deriving Repr, DecidableEq

/-- DEFAULT_MISSION_PHASES from sls_config.h, in array order.  PRELAUNCH
spans [-7200, 0), IGNITION [-6, 0), LIFTOFF [0, 10), ASCENT [10, 120),
STAGE_SEPARATION [120, 125), ORBIT_INSERTION [125, 480), MISSION_COMPLETE
[480, 480) (duration 0.0). -/
def DEFAULT_MISSION_PHASES : List PhaseConfig :=
  [ { phase := .prelaunch, start_time := -7200, duration := 7200 },
    { phase := .ignition, start_time := -6, duration := 6 },
    { phase := .liftoff, start_time := 0, duration := 10 },
    { phase := .ascent, start_time := 10, duration := 110 },
    { phase := .stageSeparation, start_time := 120, duration := 5 },
    { phase := .orbitInsertion, start_time := 125, duration := 355 },
    { phase := .missionComplete, start_time := 480, duration := 0 } ]

/-- The phase-selection loop of update_mission_phase in main.c: scan
DEFAULT_MISSION_PHASES in order and take the FIRST entry whose half-open
window [start_time, start_time + duration) contains the mission time; if no
entry matches, keep the current phase. -/
def update_mission_phase (current : MissionPhase) (mt : ℚ) : MissionPhase :=
  match DEFAULT_MISSION_PHASES.find?
      (fun p => decide (p.start_time ≤ mt ∧ mt < p.start_time + p.duration)) with
  | some p => p.phase
  | none => current

/-! ## Flight-control dynamics (flight_control.c) -/

/-- sls_clamp from sls_utils.c. -/
def sls_clamp (value min_val max_val : ℚ) : ℚ :=
  if value < min_val then min_val
  else if value > max_val then max_val
  else value

/-- VEHICLE_DRY_MASS_KG from sls_config.h. -/
def VEHICLE_DRY_MASS_KG : ℚ := 500000

/-- VEHICLE_FUEL_MASS_KG from sls_config.h. -/
def VEHICLE_FUEL_MASS_KG : ℚ := 1500000

/-- VEHICLE_MAX_THRUST_N from sls_config.h. -/
def VEHICLE_MAX_THRUST_N : ℚ := 7500000

/-- The vehicle_state_t fields update_vehicle_dynamics touches (position,
velocity, acceleration as three scalar components each, plus mission time,
fuel, thrust, mass, altitude, dynamic pressure and Mach). -/
structure VehicleState where
  pos0 : ℚ
  pos1 : ℚ
  pos2 : ℚ
  vel0 : ℚ
  vel1 : ℚ
  vel2 : ℚ
  acc0 : ℚ
  acc1 : ℚ
  acc2 : ℚ
  mission_time : ℚ
  fuel_remaining : ℚ
  thrust : ℚ
  mass : ℚ
  altitude : ℚ
  dynamic_pressure : ℚ
  mach_number : ℚ
deriving Repr, DecidableEq

/-- The vehicle state set up by initialize_flight_control: everything zero
except mass = dry + fuel and fuel_remaining = 100. -/
def vehicleInit : VehicleState :=
  { pos0 := 0, pos1 := 0, pos2 := 0, vel0 := 0, vel1 := 0, vel2 := 0,
    acc0 := 0, acc1 := 0, acc2 := 0, mission_time := 0,
    fuel_remaining := 100, thrust := 0,
    mass := VEHICLE_DRY_MASS_KG + VEHICLE_FUEL_MASS_KG,
    altitude := 0, dynamic_pressure := 0, mach_number := 0 }

/-- update_vehicle_dynamics from flight_control.c, over exact rationals.
expQ and sqrtQ abstract the C library exp and sqrt; they feed only the
dynamic-pressure and Mach computations at the end.  The phase is the
g_fc_state.current_phase the tick runs under.  The early return fires when
dt <= 0 or dt > 1.  In flight (PHASE_LIFTOFF <= phase <=
PHASE_ORBIT_INSERTION) thrust acceleration uses the pre-burn mass, then
mass is decremented and fuel recomputed through sls_clamp; in PHASE_IGNITION
and in all other (ground) phases acceleration, velocity, position[2] and
altitude are zeroed before the Euler integration step. -/
def update_vehicle_dynamics (expQ sqrtQ : ℚ → ℚ) (phase : MissionPhase)
    (vs : VehicleState) (dt : ℚ) : VehicleState :=
  if dt ≤ 0 ∨ dt > 1 then vs
  else
    let vs := { vs with mission_time := vs.mission_time + dt }
    let vs :=
      if phaseIdx .liftoff ≤ phaseIdx phase ∧ phaseIdx phase ≤ phaseIdx .orbitInsertion then
        let thrust_percentage : ℚ := if phase = .ascent then 75 else 100
        let thrust := VEHICLE_MAX_THRUST_N * (thrust_percentage / 100)
        let thrust_accel := thrust / vs.mass
        let acc2 := thrust_accel - 981 / 100
        let mass := vs.mass - 1000 * dt
        let fuel := sls_clamp ((mass - VEHICLE_DRY_MASS_KG) / VEHICLE_FUEL_MASS_KG * 100) 0 100
        { vs with thrust := thrust, acc2 := acc2, mass := mass, fuel_remaining := fuel }
      else if phase = .ignition then
        { vs with thrust := VEHICLE_MAX_THRUST_N * (1 / 2),
                  acc0 := 0, acc1 := 0, acc2 := 0,
                  vel0 := 0, vel1 := 0, vel2 := 0,
                  pos2 := 0, altitude := 0 }
      else
        { vs with thrust := 0,
                  acc0 := 0, acc1 := 0, acc2 := 0,
                  vel0 := 0, vel1 := 0, vel2 := 0,
                  pos2 := 0, altitude := 0 }
    let vs := { vs with vel0 := vs.vel0 + vs.acc0 * dt,
                        vel1 := vs.vel1 + vs.acc1 * dt,
                        vel2 := vs.vel2 + vs.acc2 * dt }
    let vs := { vs with pos0 := vs.pos0 + vs.vel0 * dt,
                        pos1 := vs.pos1 + vs.vel1 * dt,
                        pos2 := vs.pos2 + vs.vel2 * dt }
    let vs := { vs with altitude := vs.pos2 }
    let air_density := 1225 / 1000 * expQ (-vs.altitude / 8000)
    let velocity_magnitude :=
      sqrtQ (vs.vel0 * vs.vel0 + vs.vel1 * vs.vel1 + vs.vel2 * vs.vel2)
    { vs with
      dynamic_pressure := 1 / 2 * air_density * velocity_magnitude * velocity_magnitude,
      mach_number := velocity_magnitude / 343 }

/-- A run of flight-control dynamics ticks: each tick supplies the phase
polled from the main system and the measured dt. -/
def dynamicsRun (expQ sqrtQ : ℚ → ℚ) (vs : VehicleState)
    (ticks : List (MissionPhase × ℚ)) : VehicleState :=
  ticks.foldl (fun vs t => update_vehicle_dynamics expQ sqrtQ t.1 vs t.2) vs

/-! ## Telemetry record formatting (main_qnx.c, append_telem_line) -/

/-- The ASCII digit for a value in 0..9. -/
def digitChar (d : Nat) : Char := Char.ofNat (48 + d)

/-- Decimal digit expansion, most significant first, fuel-driven (the fuel
n+1 always suffices for the value n). -/
def natDigitsGo : Nat → Nat → List Char → List Char
  | 0, _, acc => acc
  | fuel + 1, n, acc =>
    if n < 10 then digitChar n :: acc
    else natDigitsGo fuel (n / 10) (digitChar (n % 10) :: acc)

/-- The %ld / %d rendering of a non-negative value: its decimal digits. -/
def natDigits (n : Nat) : List Char := natDigitsGo (n + 1) n []

/-- The %03ld rendering of the millisecond field: tv_nsec/1000000 is in
0..999, so the zero-padded width-3 form is exactly three digits. -/
def fmt3 (m : Nat) : List Char :=
  [digitChar (m / 100), digitChar (m / 10 % 10), digitChar (m % 10)]

/-- The %d rendering of a C int. -/
def fmtInt (i : Int) : List Char :=
  if i < 0 then '-' :: natDigits i.natAbs else natDigits i.natAbs

/-- The %.2f rendering of a double, modelled over exact rationals: optional
sign, then the integer part, a dot, and exactly two fractional digits of
the value rounded to hundredths (the exact rounding rule of the C library
is immaterial to the record shape). -/
def fmtF2 (q : ℚ) : List Char :=
  let n : Nat := (Int.floor (|q| * 100 + 1 / 2)).toNat
  (if q < 0 then ['-'] else []) ++
    natDigits (n / 100) ++ '.' :: [digitChar (n % 100 / 10), digitChar (n % 10)]

/-- append_telem_line from main_qnx.c: the snprintf with format
"%ld.%03ld,alt=%.2f,vel=%.2f,thr=%d,go=%d\n" applied to (tv_sec,
tv_nsec/1000000, g_altitude, g_velocity, g_throttle, g_mission_go).
tv_sec of CLOCK_REALTIME is non-negative, so seconds are a Nat. -/
def append_telem_line (sec millis : Nat) (alt vel : ℚ) (thr go : Int) : List Char :=
  natDigits sec ++ '.' :: fmt3 millis ++
  (",alt=".toList ++ fmtF2 alt) ++
  (",vel=".toList ++ fmtF2 vel) ++
  (",thr=".toList ++ fmtInt thr) ++
  (",go=".toList ++ fmtInt go) ++ ['\n']

/-- A non-empty run of ASCII decimal digits. -/
def IsDigitRun (l : List Char) : Prop :=
  l ≠ [] ∧ ∀ c ∈ l, '0' ≤ c ∧ c ≤ '9'

/-- The shape <i> of a rendered integer: optional minus sign, then digits. -/
def IsIntShape (l : List Char) : Prop :=
  ∃ sgn ds, (sgn = ([] : List Char) ∨ sgn = ['-']) ∧ l = sgn ++ ds ∧ IsDigitRun ds

/-- The shape <f> of a rendered float: optional minus sign, digits, a dot,
then digits. -/
def IsFloatShape (l : List Char) : Prop :=
  ∃ sgn a b, (sgn = ([] : List Char) ∨ sgn = ['-']) ∧
    l = sgn ++ a ++ '.' :: b ∧ IsDigitRun a ∧ IsDigitRun b

/-- The record shape of the claim: `<sec>.<millis>,alt=<f>,vel=<f>,thr=<i>,
go=<0|1>` followed by a newline, with integer seconds, an exactly
three-digit millisecond field, the four keys in that order, thr an integer
and go a single 0 or 1, and the newline the only one in the line (a single
line). -/
def RecordShape (l : List Char) : Prop :=
  ∃ sec mil alt vel thr go,
    l = sec ++ '.' :: mil ++
        (",alt=".toList ++ alt) ++ (",vel=".toList ++ vel) ++
        (",thr=".toList ++ thr) ++ (",go=".toList ++ go) ++ ['\n'] ∧
    IsDigitRun sec ∧ IsDigitRun mil ∧ mil.length = 3 ∧
    IsFloatShape alt ∧ IsFloatShape vel ∧ IsIntShape thr ∧
    (go = ['0'] ∨ go = ['1']) ∧
    l.count '\n' = 1

/-! ## Helper lemmas about the command service -/

lemma throttleClampC_eq_clamp (v : Int) : throttleClampC v = max 0 (min v 100) := by
  simp only [throttleClampC]
  split_ifs <;> omega

lemma throttleClampC_bounds (v : Int) :
    0 ≤ throttleClampC v ∧ throttleClampC v ≤ 100 := by
  simp only [throttleClampC]
  split_ifs <;> omega

lemma recv_handle_reply_eq (s : SrvState) (m : SimMsg) :
    (recv_handle s m).2.mission_go = (recv_handle s m).1.mission_go ∧
    (recv_handle s m).2.throttle = (recv_handle s m).1.throttle :=
  ⟨rfl, rfl⟩

lemma recv_handle_fst_throttle (s : SrvState) (m : SimMsg) :
    (recv_handle s m).1.throttle = s.throttle ∨
    (recv_handle s m).1.throttle = throttleClampC m.value := by
  unfold recv_handle
  split_ifs <;> simp

lemma recv_run_cons (s : SrvState) (m : SimMsg) (ms : List SimMsg) :
    recv_run s (m :: ms) = recv_run (recv_handle s m).1 ms := rfl

lemma recv_run_throttle_bounds (s : SrvState) (ms : List SimMsg)
    (h0 : 0 ≤ s.throttle) (h1 : s.throttle ≤ 100) :
    0 ≤ (recv_run s ms).throttle ∧ (recv_run s ms).throttle ≤ 100 := by
  induction ms generalizing s with
  | nil => exact ⟨h0, h1⟩
  | cons m rest ih =>
    rw [recv_run_cons]
    rcases recv_handle_fst_throttle s m with h | h
    · exact ih _ (h ▸ h0) (h ▸ h1)
    · have hb := throttleClampC_bounds m.value
      exact ih _ (h ▸ hb.1) (h ▸ hb.2)

lemma recv_replies_throttle_bounds (s : SrvState) (ms : List SimMsg)
    (h0 : 0 ≤ s.throttle) (h1 : s.throttle ≤ 100) :
    ∀ r ∈ recv_replies s ms, 0 ≤ r.throttle ∧ r.throttle ≤ 100 := by
  induction ms generalizing s with
  | nil => intro r hr; simp [recv_replies] at hr
  | cons m rest ih =>
    intro r hr
    have hpost : 0 ≤ (recv_handle s m).1.throttle ∧ (recv_handle s m).1.throttle ≤ 100 := by
      rcases recv_handle_fst_throttle s m with h | h
      · exact ⟨h ▸ h0, h ▸ h1⟩
      · exact h ▸ throttleClampC_bounds m.value
    simp only [recv_replies, List.mem_cons] at hr
    rcases hr with hr | hr
    · subst hr
      exact ⟨(recv_handle_reply_eq s m).2 ▸ hpost.1, (recv_handle_reply_eq s m).2 ▸ hpost.2⟩
    · exact ih _ hpost.1 hpost.2 r hr

/-! ## Claim theorems: command service -/

/-- C1: For every inbound operator command over the state (mission_go,
throttle, abort_requested): Status changes no field; Go sets mission_go
to 1 and abort_requested to 0; NoGo sets mission_go to 0 and nothing else;
Abort sets abort_requested to 1 and mission_go to 0; Throttle(v) sets
throttle to clamp(v, 0, 100) and nothing else; and in every case the one
reply sent carries the mission_go and throttle of the state after the
mutation. -/
theorem C1_command_mutations_and_replies (s : SrvState) (v : Int) :
    recv_handle s { type := CMD_STATUS, value := v } =
      (s, { ok := 1, mission_go := s.mission_go, throttle := s.throttle }) ∧
    recv_handle s { type := CMD_GO, value := v } =
      ({ s with mission_go := 1, abort_req := 0 },
       { ok := 1, mission_go := 1, throttle := s.throttle }) ∧
    recv_handle s { type := CMD_NOGO, value := v } =
      ({ s with mission_go := 0 },
       { ok := 1, mission_go := 0, throttle := s.throttle }) ∧
    recv_handle s { type := CMD_ABORT, value := v } =
      ({ s with abort_req := 1, mission_go := 0 },
       { ok := 1, mission_go := 0, throttle := s.throttle }) ∧
    recv_handle s { type := CMD_SET_THROTTLE, value := v } =
      ({ s with throttle := max 0 (min v 100) },
       { ok := 1, mission_go := s.mission_go, throttle := max 0 (min v 100) }) := by
  refine ⟨?_, ?_, ?_, ?_, ?_⟩ <;>
    simp [recv_handle, CMD_STATUS, CMD_GO, CMD_NOGO, CMD_ABORT, CMD_SET_THROTTLE,
      throttleClampC_eq_clamp]

/-- C4: starting from the initial state (throttle 0), the state throttle
and every reply throttle stay in [0, 100] for every message sequence; and
concretely Throttle 250 from the initial state replies (ok=1, mission_go=0,
throttle=100), Throttle -5 replies (ok=1, mission_go=0, throttle=0). -/
theorem C4_throttle_in_range :
    (∀ ms : List SimMsg,
      0 ≤ (recv_run srvInit ms).throttle ∧ (recv_run srvInit ms).throttle ≤ 100) ∧
    (∀ ms : List SimMsg, ∀ r ∈ recv_replies srvInit ms,
      0 ≤ r.throttle ∧ r.throttle ≤ 100) ∧
    (recv_handle srvInit { type := CMD_SET_THROTTLE, value := 250 }).2 =
      { ok := 1, mission_go := 0, throttle := 100 } ∧
    (recv_handle srvInit { type := CMD_SET_THROTTLE, value := -5 }).2 =
      { ok := 1, mission_go := 0, throttle := 0 } := by
  refine ⟨fun ms => recv_run_throttle_bounds srvInit ms (by decide) (by decide),
    fun ms => recv_replies_throttle_bounds srvInit ms (by decide) (by decide),
    by decide, by decide⟩

/-- C4 witness: the range facts instantiated at the concrete sequence
[Throttle 250] and its reply. -/
theorem C4_throttle_in_range_witness :
    0 ≤ (recv_run srvInit [{ type := CMD_SET_THROTTLE, value := 250 }]).throttle ∧
    (recv_run srvInit [{ type := CMD_SET_THROTTLE, value := 250 }]).throttle ≤ 100 :=
  C4_throttle_in_range.1 [{ type := CMD_SET_THROTTLE, value := 250 }]

lemma recv_run_abort_fixed (s : SrvState) (k : Nat) (v : Int)
    (h : s.abort_req = 1) (hg : s.mission_go = 0) :
    recv_run s (List.replicate k { type := CMD_ABORT, value := v }) = s := by
  induction k generalizing s with
  | zero => rfl
  | succ n ih =>
    rw [List.replicate_succ, recv_run_cons]
    have hstep : (recv_handle s { type := CMD_ABORT, value := v }).1 = s := by
      simp [recv_handle, CMD_STATUS, CMD_GO, CMD_NOGO, CMD_ABORT]
      cases s
      simp_all
    rw [hstep]
    exact ih s h hg

/-- C8: Status-only sequences leave the state unchanged; NoGo then Status
replies mission_go = 0; Go then Status replies mission_go = 1; Throttle(v)
then Status replies throttle = clamp(v, 0, 100); and Abort is idempotent:
any positive number of repeated Aborts leaves abort_requested = 1 and
mission_go = 0 (the throttle is untouched). -/
theorem C8_command_algebra (s : SrvState) (v : Int) (n : Nat) (hn : 1 ≤ n) :
    (∀ ms : List SimMsg, (∀ m ∈ ms, m.type = CMD_STATUS) → recv_run s ms = s) ∧
    (recv_handle (recv_handle s { type := CMD_NOGO, value := v }).1
      { type := CMD_STATUS, value := 0 }).2.mission_go = 0 ∧
    (recv_handle (recv_handle s { type := CMD_GO, value := v }).1
      { type := CMD_STATUS, value := 0 }).2.mission_go = 1 ∧
    (recv_handle (recv_handle s { type := CMD_SET_THROTTLE, value := v }).1
      { type := CMD_STATUS, value := 0 }).2.throttle = max 0 (min v 100) ∧
    recv_run s (List.replicate n { type := CMD_ABORT, value := 0 }) =
      { s with abort_req := 1, mission_go := 0 } := by
  refine ⟨?_, ?_, ?_, ?_, ?_⟩
  · intro ms hms
    induction ms with
    | nil => rfl
    | cons m rest ih =>
      rw [recv_run_cons]
      have ht := hms m (List.mem_cons_self m rest)
      have hstep : (recv_handle s m).1 = s := by
        simp [recv_handle, ht]
      rw [hstep]
      exact ih fun m' hm' => hms m' (List.mem_cons_of_mem m hm')
  · simp [recv_handle, CMD_STATUS, CMD_GO, CMD_NOGO]
  · simp [recv_handle, CMD_STATUS, CMD_GO]
  · simp [recv_handle, CMD_STATUS, CMD_GO, CMD_NOGO, CMD_ABORT, CMD_SET_THROTTLE,
      throttleClampC_eq_clamp]
  · obtain ⟨k, rfl⟩ : ∃ k, n = k + 1 := ⟨n - 1, by omega⟩
    rw [List.replicate_succ, recv_run_cons]
    have hstep : (recv_handle s { type := CMD_ABORT, value := 0 }).1 =
        { s with abort_req := 1, mission_go := 0 } := by
      simp [recv_handle, CMD_STATUS, CMD_GO, CMD_NOGO, CMD_ABORT]
    rw [hstep]
    exact recv_run_abort_fixed _ k 0 rfl rfl

/-- C8 witness: the algebra instantiated at the zero state, v = 250, n = 2,
with the Status-only part applied to a two-Status sequence. -/
theorem C8_command_algebra_witness :
    recv_run srvInit
      [{ type := CMD_STATUS, value := 0 }, { type := CMD_STATUS, value := 7 }] = srvInit ∧
    recv_run srvInit (List.replicate 2 { type := CMD_ABORT, value := 0 }) =
      { srvInit with abort_req := 1, mission_go := 0 } :=
  ⟨(C8_command_algebra srvInit 250 2 (by decide)).1 _ (by decide),
   (C8_command_algebra srvInit 250 2 (by decide)).2.2.2.2⟩

/-- C10 counterexample: from the same starting state (mission_go = 1,
throttle = 50), the abort command leaves the native service's throttle at
50 but zeroes the mock TCP server's throttle: the two transition functions
are not identical on abort. -/
theorem C10_mock_native_counterexample :
    (handle_command { mission_go := 1, engine_throttle := 50 } .abort).engine_throttle = 0 ∧
    ((recv_handle { mission_go := 1, throttle := 50, abort_req := 0 }
      { type := CMD_ABORT, value := 0 }).1).throttle = 50 ∧
    (handle_command { mission_go := 1, engine_throttle := 50 } .abort).engine_throttle ≠
      ((recv_handle { mission_go := 1, throttle := 50, abort_req := 0 }
        { type := CMD_ABORT, value := 0 }).1).throttle := by
  refine ⟨rfl, ?_, ?_⟩ <;> decide

/-- C10 amended: for status, go, nogo and set_throttle the mock TCP server
and the native service produce identical mission_go and throttle results
from any common starting state; for abort both set mission_go to 0, but the
mock server zeroes the throttle while the native service leaves it
unchanged. -/
theorem C10_mock_native_agreement (go thr ab v : Int) :
    ((handle_command { mission_go := go, engine_throttle := thr } .status).mission_go =
        ((recv_handle { mission_go := go, throttle := thr, abort_req := ab }
          { type := CMD_STATUS, value := 0 }).1).mission_go ∧
      (handle_command { mission_go := go, engine_throttle := thr } .status).engine_throttle =
        ((recv_handle { mission_go := go, throttle := thr, abort_req := ab }
          { type := CMD_STATUS, value := 0 }).1).throttle) ∧
    ((handle_command { mission_go := go, engine_throttle := thr } .go).mission_go =
        ((recv_handle { mission_go := go, throttle := thr, abort_req := ab }
          { type := CMD_GO, value := 0 }).1).mission_go ∧
      (handle_command { mission_go := go, engine_throttle := thr } .go).engine_throttle =
        ((recv_handle { mission_go := go, throttle := thr, abort_req := ab }
          { type := CMD_GO, value := 0 }).1).throttle) ∧
    ((handle_command { mission_go := go, engine_throttle := thr } .nogo).mission_go =
        ((recv_handle { mission_go := go, throttle := thr, abort_req := ab }
          { type := CMD_NOGO, value := 0 }).1).mission_go ∧
      (handle_command { mission_go := go, engine_throttle := thr } .nogo).engine_throttle =
        ((recv_handle { mission_go := go, throttle := thr, abort_req := ab }
          { type := CMD_NOGO, value := 0 }).1).throttle) ∧
    ((handle_command { mission_go := go, engine_throttle := thr } (.setThrottle v)).mission_go =
        ((recv_handle { mission_go := go, throttle := thr, abort_req := ab }
          { type := CMD_SET_THROTTLE, value := v }).1).mission_go ∧
      (handle_command { mission_go := go, engine_throttle := thr } (.setThrottle v)).engine_throttle =
        ((recv_handle { mission_go := go, throttle := thr, abort_req := ab }
          { type := CMD_SET_THROTTLE, value := v }).1).throttle) ∧
    ((handle_command { mission_go := go, engine_throttle := thr } .abort).mission_go =
        ((recv_handle { mission_go := go, throttle := thr, abort_req := ab }
          { type := CMD_ABORT, value := 0 }).1).mission_go ∧
      (handle_command { mission_go := go, engine_throttle := thr } .abort).engine_throttle = 0 ∧
      ((recv_handle { mission_go := go, throttle := thr, abort_req := ab }
        { type := CMD_ABORT, value := 0 }).1).throttle = thr) := by
  refine ⟨⟨?_, ?_⟩, ⟨?_, ?_⟩, ⟨?_, ?_⟩, ⟨?_, ?_⟩, ⟨?_, ?_, ?_⟩⟩ <;>
    simp [handle_command, recv_handle, CMD_STATUS, CMD_GO, CMD_NOGO, CMD_ABORT,
      CMD_SET_THROTTLE]

/-! ## Claim theorems: mission phase and dynamics -/

/-- C3 (divergence): the phase lookup of main.c does not implement the
claimed state machine.  There is no Countdown value in mission_phase_t at
all; at mission_time = -600 and even at -6 the first matching table entry
is PRELAUNCH (its window [-7200, 0) shadows the IGNITION entry [-6, 0), so
Ignition is unreachable); at mission_time = 480 the MISSION_COMPLETE entry
has duration 0.0 and never matches, so the phase stays OrbitInsertion; and
the lookup overwrites even an Abort phase with a time-matched phase, so
Abort is not terminal under this function. -/
theorem C3_phase_machine_divergence :
    update_mission_phase .prelaunch (-600) = .prelaunch ∧
    update_mission_phase .prelaunch (-6) = .prelaunch ∧
    update_mission_phase .prelaunch (-1) = .prelaunch ∧
    update_mission_phase .orbitInsertion 480 = .orbitInsertion ∧
    update_mission_phase .abort 5 = .liftoff := by
  refine ⟨?_, ?_, ?_, ?_, ?_⟩ <;>
    norm_num [update_mission_phase, DEFAULT_MISSION_PHASES, List.find?]

/-- C5 (divergence): on the first flight tick after entering Liftoff from
the held pad state (dt = 10 ms at the 100 Hz rate), the computed altitude
is already negative: the thrust acceleration 7.5 MN / 2 000 000 kg = 3.75
m/s² is below gravity and nothing clamps altitude at 0 during flight.  The
abstract exp and sqrt do not enter the altitude computation. -/
theorem C5_flight_altitude_negative (expQ sqrtQ : ℚ → ℚ) :
    (update_vehicle_dynamics expQ sqrtQ .liftoff vehicleInit (1 / 100)).altitude =
      -(303 / 500000) ∧
    (update_vehicle_dynamics expQ sqrtQ .liftoff vehicleInit (1 / 100)).altitude < 0 := by
  constructor <;>
    norm_num [update_vehicle_dynamics, vehicleInit, phaseIdx, VEHICLE_MAX_THRUST_N,
      VEHICLE_DRY_MASS_KG, VEHICLE_FUEL_MASS_KG, sls_clamp,
      show MissionPhase.liftoff ≠ MissionPhase.ascent from by decide]

lemma sls_clamp_bounds (x lo hi : ℚ) (h : lo ≤ hi) :
    lo ≤ sls_clamp x lo hi ∧ sls_clamp x lo hi ≤ hi := by
  simp only [sls_clamp]
  split_ifs <;> constructor <;> linarith

lemma update_vehicle_dynamics_fuel_bounds (expQ sqrtQ : ℚ → ℚ)
    (phase : MissionPhase) (vs : VehicleState) (dt : ℚ)
    (h0 : 0 ≤ vs.fuel_remaining) (h1 : vs.fuel_remaining ≤ 100) :
    0 ≤ (update_vehicle_dynamics expQ sqrtQ phase vs dt).fuel_remaining ∧
    (update_vehicle_dynamics expQ sqrtQ phase vs dt).fuel_remaining ≤ 100 := by
  simp only [update_vehicle_dynamics]
  split_ifs <;>
    first
      | exact ⟨h0, h1⟩
      | exact sls_clamp_bounds _ 0 100 (by norm_num)

/-- C7: over every run of flight-control ticks from the initialised vehicle
state (any phases polled, any dts, any exp and sqrt realisations), the fuel
percentage stays within [0, 100]: during flight each tick recomputes it
through sls_clamp(·, 0, 100) and outside flight it is not touched. -/
theorem C7_fuel_pct_in_range (expQ sqrtQ : ℚ → ℚ)
    (ticks : List (MissionPhase × ℚ)) :
    0 ≤ (dynamicsRun expQ sqrtQ vehicleInit ticks).fuel_remaining ∧
    (dynamicsRun expQ sqrtQ vehicleInit ticks).fuel_remaining ≤ 100 := by
  have main : ∀ (ticks : List (MissionPhase × ℚ)) (vs : VehicleState),
      0 ≤ vs.fuel_remaining → vs.fuel_remaining ≤ 100 →
      0 ≤ (dynamicsRun expQ sqrtQ vs ticks).fuel_remaining ∧
      (dynamicsRun expQ sqrtQ vs ticks).fuel_remaining ≤ 100 := by
    intro ticks
    induction ticks with
    | nil => intro vs h0 h1; exact ⟨h0, h1⟩
    | cons t rest ih =>
      intro vs h0 h1
      have hstep := update_vehicle_dynamics_fuel_bounds expQ sqrtQ t.1 vs t.2 h0 h1
      exact ih _ hstep.1 hstep.2
  exact main ticks vehicleInit (by norm_num [vehicleInit]) (by norm_num [vehicleInit])

/-! ## Helper lemmas about the telemetry ring -/

lemma map_range_tail {α : Type} (f : Nat → α) (n : Nat) :
    (List.map f (List.range (n + 1))).tail = List.map (fun k => f (k + 1)) (List.range n) := by
  rw [List.range_succ_eq_map]
  simp [List.map_map, Function.comp]

lemma appendByte_WF (s : RingState) (c : Char) (hW : RingWF s) : RingWF (appendByte s c) := by
  obtain ⟨h1, h2⟩ := hW
  simp only [RBUF_SZ] at h1 h2
  constructor <;> simp only [appendByte, RBUF_SZ] <;> split_ifs <;> dsimp only <;> omega

set_option maxRecDepth 4000 in
lemma ringObs_appendByte (s : RingState) (c : Char) (hW : RingWF s) :
    ringObs (appendByte s c) =
      (if ringAvailable s = RBUF_SZ - 1 then (ringObs s).tail else ringObs s) ++ [c] := by
  obtain ⟨hh, ht⟩ := hW
  simp only [RBUF_SZ] at hh ht
  have havail : (s.r_tail ≤ s.r_head ∧ ringAvailable s = s.r_head - s.r_tail) ∨
      (s.r_head < s.r_tail ∧ ringAvailable s = 8192 - (s.r_tail - s.r_head)) := by
    simp only [ringAvailable, RBUF_SZ]
    rcases le_or_lt s.r_tail s.r_head with hc | hc
    · exact Or.inl ⟨hc, by rw [if_pos hc]⟩
    · exact Or.inr ⟨hc, by rw [if_neg (by omega)]⟩
  by_cases hfull : (s.r_head + 1) % RBUF_SZ = s.r_tail
  · -- buffer full: the oldest byte is dropped
    simp only [RBUF_SZ] at hfull
    have hcnt : ringAvailable s = RBUF_SZ - 1 := by
      simp only [RBUF_SZ]
      rcases havail with ⟨hc, he⟩ | ⟨hc, he⟩ <;> omega
    have hs' : appendByte s c =
        { ring := fun i => if i = s.r_head then c else s.ring i,
          r_head := (s.r_head + 1) % RBUF_SZ, r_tail := (s.r_tail + 1) % RBUF_SZ } := by
      simp only [appendByte, RBUF_SZ] at *
      rw [if_pos hfull]
    have hav' : ringAvailable (appendByte s c) = RBUF_SZ - 1 := by
      rw [hs']
      simp only [ringAvailable, RBUF_SZ]
      split_ifs <;> omega
    rw [if_pos hcnt]
    unfold ringObs
    rw [hav', hcnt, hs']
    dsimp only
    obtain ⟨m, hm⟩ : ∃ m : Nat, RBUF_SZ - 1 = m + 1 := ⟨RBUF_SZ - 2, by norm_num [RBUF_SZ]⟩
    have hm' : m = 8190 := by simp only [RBUF_SZ] at hm; omega
    rw [hm, map_range_tail, List.range_succ, List.map_append, List.map_cons, List.map_nil]
    simp only [RBUF_SZ]
    congr 1
    · apply List.map_congr_left
      intro k hk
      simp only [List.mem_range] at hk
      have h1 : ((s.r_tail + 1) % 8192 + k) % 8192 = (s.r_tail + (k + 1)) % 8192 := by omega
      have h2 : (s.r_tail + (k + 1)) % 8192 ≠ s.r_head := by omega
      rw [h1, if_neg h2]
    · have h3 : ((s.r_tail + 1) % 8192 + m) % 8192 = s.r_head := by omega
      rw [h3, if_pos rfl]
  · -- not full: the byte is appended, nothing dropped
    simp only [RBUF_SZ] at hfull
    have hcnt : ringAvailable s ≠ RBUF_SZ - 1 := by
      simp only [RBUF_SZ]
      rcases havail with ⟨hc, he⟩ | ⟨hc, he⟩ <;> omega
    have hs' : appendByte s c =
        { ring := fun i => if i = s.r_head then c else s.ring i,
          r_head := (s.r_head + 1) % RBUF_SZ, r_tail := s.r_tail } := by
      simp only [appendByte, RBUF_SZ] at *
      rw [if_neg hfull]
    have hav' : ringAvailable (appendByte s c) = ringAvailable s + 1 := by
      rw [hs']
      rcases havail with ⟨hc, he⟩ | ⟨hc, he⟩ <;>
        · simp only [ringAvailable, RBUF_SZ] at *
          split_ifs <;> omega
    rw [if_neg hcnt]
    unfold ringObs
    rw [hav', hs', List.range_succ, List.map_append, List.map_cons, List.map_nil]
    dsimp only
    simp only [RBUF_SZ]
    congr 1
    · apply List.map_congr_left
      intro k hk
      simp only [List.mem_range] at hk
      have h2 : (s.r_tail + k) % 8192 ≠ s.r_head := by
        rcases havail with ⟨hc, he⟩ | ⟨hc, he⟩ <;> omega
      rw [if_neg h2]
    · have h3 : (s.r_tail + ringAvailable s) % 8192 = s.r_head := by
        rcases havail with ⟨hc, he⟩ | ⟨hc, he⟩ <;> omega
      rw [h3, if_pos rfl]

lemma ringObs_length (s : RingState) : (ringObs s).length = ringAvailable s := by
  simp [ringObs]

lemma foldl_appendByte_WF (s : RingState) (S : List Char) (hW : RingWF s) :
    RingWF (S.foldl appendByte s) := by
  induction S generalizing s with
  | nil => exact hW
  | cons c rest ih => exact ih _ (appendByte_WF s c hW)

lemma ringObs_foldl (s : RingState) (S : List Char) (hW : RingWF s) :
    ringObs (S.foldl appendByte s) = S.foldl qstep (ringObs s) := by
  induction S generalizing s with
  | nil => rfl
  | cons c rest ih =>
    rw [List.foldl_cons, List.foldl_cons, ih _ (appendByte_WF s c hW)]
    congr 1
    rw [ringObs_appendByte s c hW]
    simp [qstep, ringObs_length]

lemma ringInit_WF : RingWF ringInit := by
  constructor <;> norm_num [ringInit, RBUF_SZ]

lemma ringObs_ringInit : ringObs ringInit = [] := rfl

lemma ringObs_appendStream (S : List Char) : ringObs (appendStream S) = qrun S := by
  rw [appendStream, ringObs_foldl ringInit S ringInit_WF, ringObs_ringInit, qrun]

lemma qrun_spec (S : List Char) :
    qrun S = S.drop (S.length - (RBUF_SZ - 1)) ∧
    (qrun S).length = min S.length (RBUF_SZ - 1) := by
  induction S using List.reverseRecOn with
  | nil => simp [qrun]
  | append_singleton S c ih =>
    obtain ⟨ih1, ih2⟩ := ih
    have hq : qrun (S ++ [c]) = qstep (qrun S) c := by
      rw [qrun, List.foldl_append, List.foldl_cons, List.foldl_nil, qrun]
    by_cases hlen : S.length < RBUF_SZ - 1
    · have hne : (qrun S).length ≠ RBUF_SZ - 1 := by omega
      rw [hq, qstep, if_neg hne, ih1]
      constructor
      · have h1 : S.length - (RBUF_SZ - 1) = 0 := by omega
        have h2 : (S ++ [c]).length - (RBUF_SZ - 1) = 0 := by
          simp only [List.length_append, List.length_cons, List.length_nil]
          omega
        rw [h1, h2, List.drop_zero, List.drop_zero]
      · simp only [List.length_append, List.length_drop, List.length_cons,
          List.length_nil, RBUF_SZ] at hlen ⊢
        omega
    · have heq : (qrun S).length = RBUF_SZ - 1 := by omega
      rw [hq, qstep, if_pos heq, ih1]
      constructor
      · rw [List.tail_drop]
        have h2 : (S ++ [c]).length - (RBUF_SZ - 1) = S.length - (RBUF_SZ - 1) + 1 := by
          simp only [List.length_append, List.length_cons, List.length_nil]
          omega
        rw [h2, List.drop_append_of_le_length (by simp only [RBUF_SZ] at hlen ⊢; omega)]
      · simp only [List.length_append, List.length_tail, List.length_drop,
          List.length_cons, List.length_nil, RBUF_SZ] at hlen ⊢
        omega

/-- n repetitions of a byte record: the writer's stream for the overwrite
scenario. -/
def repList (n : Nat) (l : List Char) : List Char :=
  match n with
  | 0 => []
  | k + 1 => l ++ repList k l

/-- A 40-byte newline-terminated telemetry record used as the concrete
writer record in the overwrite scenario. -/
def recR : List Char := "1000.000,alt=11.00,vel=2.00,thr=60,go=1\n".toList

lemma repList_length (n : Nat) (l : List Char) :
    (repList n l).length = n * l.length := by
  induction n with
  | zero => simp [repList]
  | succ k ih => simp [repList, ih]; ring

lemma rmgr_append_recR (s : RingState) :
    rmgr_telemetry_append s recR = recR.foldl appendByte s := by
  rw [rmgr_telemetry_append, List.take_of_length_le (by norm_num [recR])]

lemma foldl_rmgr_replicate_recR (s : RingState) (n : Nat) :
    (List.replicate n recR).foldl rmgr_telemetry_append s =
      (repList n recR).foldl appendByte s := by
  induction n generalizing s with
  | zero => rfl
  | succ k ih =>
    rw [List.replicate_succ, List.foldl_cons, rmgr_append_recR, ih]
    show _ = (recR ++ repList k recR).foldl appendByte s
    rw [List.foldl_append]

/-! ## Claim theorems: telemetry device -/

/-- C2 counterexample: call rmgr_telemetry_append 205 times with the same
40-byte newline-terminated record (8200 bytes) on the empty device.  The
bytes a reader can then observe are the writer's stream from offset 9 on:
the first 9 bytes of the first clobbered record are gone but its remaining
31 bytes (a strict suffix, cut at a byte position not preceded by a
newline) are still observable.  The read head was NOT advanced past the
newline terminator of the clobbered record, and the observable bytes do
not all belong to complete records: the record's bytes are split by the
overwrite. -/
theorem C2_overwrite_splits_record :
    ringObs ((List.replicate 205 recR).foldl rmgr_telemetry_append ringInit) =
      recR.drop 9 ++ repList 204 recR ∧
    recR.length = 40 ∧ recR.count '\n' = 1 ∧ recR.getLast? = some '\n' ∧
    recR.getD 8 ' ' ≠ '\n' ∧ recR.drop 9 ≠ recR ∧ recR.drop 9 ≠ [] := by
  refine ⟨?_, by decide, by decide, by decide, by decide, by decide, by decide⟩
  rw [foldl_rmgr_replicate_recR]
  rw [show (repList 205 recR).foldl appendByte ringInit = appendStream (repList 205 recR)
    from rfl]
  rw [ringObs_appendStream, (qrun_spec _).1]
  have hlen : (repList 205 recR).length = 8200 := by
    rw [repList_length]; norm_num [recR]
  rw [hlen]
  norm_num [RBUF_SZ]
  show (recR ++ repList 204 recR).drop 9 = _
  rw [List.drop_append_of_le_length (by norm_num [recR])]

/-- C2 amended: when an append meets the read head, the device drops the
oldest data ONE BYTE at a time: the read head advances by exactly one byte
per overwritten byte (not past the clobbered record's newline), so the
observable byte queue is a bounded FIFO of capacity RBUF_SZ - 1 dropping
single oldest bytes, and the oldest observable record may have lost leading
bytes (record bytes can be split by overwrite). -/
theorem C2_amended_bytewise_drop_oldest (s : RingState) (c : Char) (hW : RingWF s) :
    (appendByte s c).r_tail =
      (if (s.r_head + 1) % RBUF_SZ = s.r_tail then (s.r_tail + 1) % RBUF_SZ
       else s.r_tail) ∧
    ringObs (appendByte s c) =
      (if ringAvailable s = RBUF_SZ - 1 then (ringObs s).tail else ringObs s) ++ [c] := by
  constructor
  · simp only [appendByte]
    split_ifs <;> rfl
  · exact ringObs_appendByte s c hW

/-- C2 amended witness: the byte-wise drop-oldest step evaluated on the
initial (empty) device. -/
theorem C2_amended_bytewise_drop_oldest_witness :
    (appendByte ringInit 'x').r_tail =
      (if (ringInit.r_head + 1) % RBUF_SZ = ringInit.r_tail
       then (ringInit.r_tail + 1) % RBUF_SZ else ringInit.r_tail) ∧
    ringObs (appendByte ringInit 'x') =
      (if ringAvailable ringInit = RBUF_SZ - 1 then (ringObs ringInit).tail
       else ringObs ringInit) ++ ['x'] :=
  C2_amended_bytewise_drop_oldest ringInit 'x' (by constructor <;> norm_num [ringInit, RBUF_SZ])

set_option maxRecDepth 16000 in
/-- C6 counterexample: a blocking read (reader rcvid 7, one byte) on the
empty device gets _RESMGR_NOREPLY: no reply is sent and the reader is left
reply-blocked.  The writer then appends a 40-byte record, so bytes ARE now
available - but the append sends no reply and the reader is still blocked:
the device does not wake a suspended reader when a byte becomes available,
contrary to the claim's blocking clause. -/
theorem C6_blocked_reader_not_woken :
    devStep { ring := ringInit, pending := [] } (.read 7 false 1) =
      ({ ring := ringInit, pending := [7] }, []) ∧
    devStep { ring := ringInit, pending := [7] } (.append recR) =
      ({ ring := rmgr_telemetry_append ringInit recR, pending := [7] }, []) ∧
    0 < ringAvailable (rmgr_telemetry_append ringInit recR) := by
  refine ⟨rfl, rfl, by decide⟩

/-- C6 amended: for a read of n >= 1 bytes: on an empty device the call
returns EAGAIN in non-blocking mode; on a non-empty device it returns k
bytes with 1 <= k <= min(available, n), the bytes are the FIFO prefix of
the observable stream starting at the read head, the copy never crosses
the wrap point (r_tail + k <= RBUF_SZ), and the read head advances by k;
no other data-dependent outcome exists.  In blocking mode an empty device
suspends the reader INDEFINITELY: the call sends no reply and the server
records nothing about the blocked rcvid, an append touches only the ring
and replies to nobody, and no device event ever removes a reader from the
reply-blocked set - a suspended reader is not woken when a byte becomes
available. -/
theorem C6_read_blocking_contract (s : RingState) (nonblock : Bool) (n : Nat)
    (hW : RingWF s) (hn : 1 ≤ n) :
    (ringAvailable s = 0 →
      io_read s nonblock n = ((if nonblock then .eagain else .noreply), s)) ∧
    (0 < ringAvailable s →
      ∃ k, 1 ≤ k ∧ k ≤ min (ringAvailable s) n ∧
        s.r_tail + k ≤ RBUF_SZ ∧
        io_read s nonblock n =
          (.data ((ringObs s).take k), { s with r_tail := (s.r_tail + k) % RBUF_SZ })) ∧
    (∀ (d : DevState) (rcvid : Nat), ringAvailable d.ring = 0 →
      devStep d (.read rcvid false n) =
        ({ ring := d.ring, pending := rcvid :: d.pending }, [])) ∧
    (∀ (d : DevState) (line : List Char),
      devStep d (.append line) =
        ({ ring := rmgr_telemetry_append d.ring line, pending := d.pending }, [])) ∧
    (∀ (d : DevState) (e : DevEvent), d.pending ⊆ (devStep d e).1.pending) := by
  obtain ⟨hh, ht⟩ := hW
  refine ⟨?_, ?_, ?_, ?_, ?_⟩
  · intro hempty
    simp only [io_read, if_neg (by omega : ¬ n = 0), hempty, if_pos rfl]
    split_ifs <;> rfl
  · intro hpos
    simp only [io_read, if_neg (by omega : ¬ n = 0),
      if_neg (by omega : ¬ ringAvailable s = 0)]
    set tc := if ringAvailable s < n then ringAvailable s else n with htc
    set e := if s.r_tail + tc ≤ RBUF_SZ then s.r_tail + tc else RBUF_SZ with he
    refine ⟨e - s.r_tail, ?_, ?_, ?_, ?_⟩
    · have htc1 : 1 ≤ tc := by rw [htc]; split_ifs <;> omega
      rw [he]
      simp only [RBUF_SZ] at *
      split_ifs <;> omega
    · have : tc ≤ min (ringAvailable s) n := by rw [htc]; split_ifs <;> omega
      rw [he]
      split_ifs <;> omega
    · rw [he]
      simp only [RBUF_SZ] at *
      split_ifs <;> omega
    · congr 1
      congr 1
      have hn1avail : e - s.r_tail ≤ ringAvailable s := by
        rw [he, htc]
        simp only [ringAvailable, RBUF_SZ] at *
        split_ifs <;> omega
      have hnowrap : s.r_tail + (e - s.r_tail) ≤ RBUF_SZ := by
        rw [he]
        simp only [RBUF_SZ] at *
        split_ifs <;> omega
      rw [ringObs, ← List.map_take, List.take_range]
      rw [Nat.min_eq_left hn1avail]
      apply List.map_congr_left
      intro k hk
      simp only [List.mem_range] at hk
      have hmod : (s.r_tail + k) % RBUF_SZ = s.r_tail + k := by
        apply Nat.mod_eq_of_lt
        simp only [RBUF_SZ] at *
        omega
      rw [hmod]
  · intro d rcvid hempty
    have hio : io_read d.ring false n = (.noreply, d.ring) := by
      simp only [io_read, if_neg (by omega : ¬ n = 0), hempty, if_pos rfl]
      rfl
    simp [devStep, hio]
  · intro d line
    rfl
  · intro d e
    cases e with
    | read rcvid nonblock nbytes =>
      rcases hio : io_read d.ring nonblock nbytes with ⟨res, ring2⟩
      cases res <;>
        · simp only [devStep, hio]
          intro x hx
          simp [hx]
    | append line =>
      intro x hx
      exact hx

/-- C6 witness: the per-call contract evaluated on a one-byte device state
with a non-blocking five-byte read. -/
theorem C6_read_blocking_contract_witness :
    (ringAvailable { ring := fun _ => 'a', r_head := 1, r_tail := 0 } = 0 →
      io_read { ring := fun _ => 'a', r_head := 1, r_tail := 0 } true 5 =
        ((if true then .eagain else .noreply),
         { ring := fun _ => 'a', r_head := 1, r_tail := 0 })) ∧
    (0 < ringAvailable { ring := fun _ => 'a', r_head := 1, r_tail := 0 } →
      ∃ k, 1 ≤ k ∧
        k ≤ min (ringAvailable { ring := fun _ => 'a', r_head := 1, r_tail := 0 }) 5 ∧
        (0 : Nat) + k ≤ RBUF_SZ ∧
        io_read { ring := fun _ => 'a', r_head := 1, r_tail := 0 } true 5 =
          (.data ((ringObs { ring := fun _ => 'a', r_head := 1, r_tail := 0 }).take k),
           { ring := fun _ => 'a', r_head := 1, r_tail := (0 + k) % RBUF_SZ })) :=
  ⟨(C6_read_blocking_contract { ring := fun _ => 'a', r_head := 1, r_tail := 0 } true 5
      (by constructor <;> norm_num [RBUF_SZ]) (by norm_num)).1,
   (C6_read_blocking_contract { ring := fun _ => 'a', r_head := 1, r_tail := 0 } true 5
      (by constructor <;> norm_num [RBUF_SZ]) (by norm_num)).2.1⟩

/-! ## Helper lemmas about the record formatter -/

lemma digitChar_bounds (d : Nat) (hd : d < 10) :
    '0' ≤ digitChar d ∧ digitChar d ≤ '9' := by
  interval_cases d <;> exact ⟨by decide, by decide⟩

lemma natDigitsGo_spec (fuel : Nat) : ∀ (n : Nat) (acc : List Char), n < fuel →
    ∃ ds, natDigitsGo fuel n acc = ds ++ acc ∧ ds ≠ [] ∧
      ∀ c ∈ ds, '0' ≤ c ∧ c ≤ '9' := by
  induction fuel with
  | zero => intro n acc hn; omega
  | succ f ih =>
    intro n acc hn
    by_cases h10 : n < 10
    · refine ⟨[digitChar n], ?_, by simp, ?_⟩
      · simp [natDigitsGo, h10]
      · intro c hc
        simp only [List.mem_singleton] at hc
        subst hc
        exact digitChar_bounds n h10
    · have hf : n / 10 < f := by omega
      obtain ⟨ds, hds, hne, hdig⟩ := ih (n / 10) (digitChar (n % 10) :: acc) hf
      refine ⟨ds ++ [digitChar (n % 10)], ?_, by simp [hne], ?_⟩
      · rw [natDigitsGo, if_neg h10, hds, List.append_assoc, List.singleton_append]
      · intro c hc
        rcases List.mem_append.mp hc with hc | hc
        · exact hdig c hc
        · simp only [List.mem_singleton] at hc
          subst hc
          exact digitChar_bounds _ (Nat.mod_lt _ (by norm_num))

lemma natDigits_digit_run (n : Nat) : IsDigitRun (natDigits n) := by
  obtain ⟨ds, hds, hne, hdig⟩ := natDigitsGo_spec (n + 1) n [] (by omega)
  rw [natDigits, hds, List.append_nil]
  exact ⟨hne, hdig⟩

lemma fmt3_digit_run (m : Nat) (hm : m ≤ 999) : IsDigitRun (fmt3 m) := by
  refine ⟨by simp [fmt3], ?_⟩
  intro c hc
  simp only [fmt3, List.mem_cons, List.mem_singleton, List.not_mem_nil, or_false] at hc
  rcases hc with h | h | h <;> subst h <;> exact digitChar_bounds _ (by omega)

lemma fmtInt_int_shape (i : Int) : IsIntShape (fmtInt i) := by
  by_cases h : i < 0
  · exact ⟨['-'], natDigits i.natAbs, Or.inr rfl, by simp [fmtInt, h], natDigits_digit_run _⟩
  · exact ⟨[], natDigits i.natAbs, Or.inl rfl, by simp [fmtInt, h], natDigits_digit_run _⟩

lemma fmtF2_float_shape (q : ℚ) : IsFloatShape (fmtF2 q) := by
  by_cases h : q < 0
  · refine ⟨['-'], natDigits ((Int.floor (|q| * 100 + 1 / 2)).toNat / 100),
      [digitChar ((Int.floor (|q| * 100 + 1 / 2)).toNat % 100 / 10),
       digitChar ((Int.floor (|q| * 100 + 1 / 2)).toNat % 10)], Or.inr rfl, ?_,
      natDigits_digit_run _, ?_⟩
    · simp [fmtF2, h]
    · refine ⟨by simp, ?_⟩
      intro c hc
      simp only [List.mem_cons, List.mem_singleton, List.not_mem_nil, or_false] at hc
      rcases hc with hc | hc <;> subst hc <;> exact digitChar_bounds _ (by omega)
  · refine ⟨[], natDigits ((Int.floor (|q| * 100 + 1 / 2)).toNat / 100),
      [digitChar ((Int.floor (|q| * 100 + 1 / 2)).toNat % 100 / 10),
       digitChar ((Int.floor (|q| * 100 + 1 / 2)).toNat % 10)], Or.inl rfl, ?_,
      natDigits_digit_run _, ?_⟩
    · simp [fmtF2, h]
    · refine ⟨by simp, ?_⟩
      intro c hc
      simp only [List.mem_cons, List.mem_singleton, List.not_mem_nil, or_false] at hc
      rcases hc with hc | hc <;> subst hc <;> exact digitChar_bounds _ (by omega)

lemma digit_run_count_nl (l : List Char) (h : ∀ c ∈ l, '0' ≤ c ∧ c ≤ '9') :
    l.count '\n' = 0 := by
  rw [List.count_eq_zero]
  intro hmem
  have := h _ hmem
  revert this
  decide

lemma fmtInt_count_nl (i : Int) : (fmtInt i).count '\n' = 0 := by
  obtain ⟨sgn, ds, hsgn, hl, hne, hdig⟩ := fmtInt_int_shape i
  rw [hl, List.count_append, digit_run_count_nl ds hdig]
  rcases hsgn with h | h <;> subst h <;> decide

lemma fmtF2_count_nl (q : ℚ) : (fmtF2 q).count '\n' = 0 := by
  obtain ⟨sgn, a, b, hsgn, hl, ⟨hane, hadig⟩, ⟨hbne, hbdig⟩⟩ := fmtF2_float_shape q
  rw [hl, List.count_append, List.count_append, List.count_cons]
  rw [digit_run_count_nl a hadig, digit_run_count_nl b hbdig]
  rcases hsgn with h | h <;> subst h <;> decide

/-! ## Claim theorem: telemetry record format -/

/-- C9: every line append_telem_line produces has the exact shape
`<sec>.<millis>,alt=<f>,vel=<f>,thr=<i>,go=<0|1>` followed by a newline,
with integer seconds, an exactly three-digit millisecond field (tv_nsec /
1000000 is at most 999), the four keys alt, vel, thr, go in that fixed
order, thr rendered as an integer, go as 0 or 1 (g_mission_go only ever
holds 0 or 1), and the newline the only one in the line. -/
theorem C9_record_line_shape (sec millis : Nat) (alt vel : ℚ) (thr go : Int)
    (hm : millis ≤ 999) (hgo : go = 0 ∨ go = 1) :
    RecordShape (append_telem_line sec millis alt vel thr go) := by
  have hgoch : fmtInt go = ['0'] ∨ fmtInt go = ['1'] := by
    rcases hgo with h | h <;> subst h
    · exact Or.inl (by decide)
    · exact Or.inr (by decide)
  refine ⟨natDigits sec, fmt3 millis, fmtF2 alt, fmtF2 vel, fmtInt thr, fmtInt go,
    rfl, natDigits_digit_run sec, fmt3_digit_run millis hm, rfl,
    fmtF2_float_shape alt, fmtF2_float_shape vel, fmtInt_int_shape thr, hgoch, ?_⟩
  simp only [append_telem_line, List.count_append, List.count_cons]
  rw [digit_run_count_nl _ (natDigits_digit_run sec).2,
    digit_run_count_nl _ (fmt3_digit_run millis hm).2,
    fmtF2_count_nl, fmtF2_count_nl, fmtInt_count_nl, fmtInt_count_nl]
  decide

/-- C9 witness: the shape at the spec's example record values. -/
theorem C9_record_line_shape_witness :
    RecordShape (append_telem_line 1691000000 123 (1234 / 100) (321 / 100) 70 1) :=
  C9_record_line_shape 1691000000 123 (1234 / 100) (321 / 100) 70 1
    (by norm_num) (Or.inr rfl)
